import Mathlib

/-!
Shallow embedding of the analytics core of the repository
(`app/services/visitor_service.py`, `app/services/pageview_service.py`,
`app/services/blog_service.py`, `scripts/analytics_manager.py`).

Conventions of the embedding:
* Python `datetime` values (all UTC in the source) are modelled as `Int`
  seconds since the epoch.  Python's `datetime.replace(hour=0, ...)` is
  flooring to a multiple of 86400, `timedelta.days` is floor division by
  86400; Lean's `Int` `/` and `%` are `Int.ediv`/`Int.emod`, which agree
  with Python's floor semantics for the positive divisors used here.
* Python dicts are modelled as association lists in insertion order
  (`List (String × _)`); dict-key assignment is replace-or-append, and the
  reachable dict states have no duplicate keys.
* `str(uuid4())` (a fresh random identifier) is modelled by passing the
  generated identifier as an explicit argument; freshness is a hypothesis
  where a theorem needs it.
* Python `set`s are modelled as duplicate-free lists; only their size and
  membership are ever consumed.
* `hashlib.sha256(...).hexdigest()` is implemented concretely below
  (SHA-256 over the UTF-8 bytes, lowercase hex), with 32-bit words as
  `Nat` reduced `% 2^32`.
-/

/-! ## SHA-256 (`hashlib.sha256`), on lists of byte values -/

def w32 (n : Nat) : Nat := n % 4294967296

def rotr32 (n x : Nat) : Nat := w32 ((x >>> n) ||| (x <<< (32 - n)))

def bnot32 (x : Nat) : Nat := x ^^^ 4294967295

def shaCh (x y z : Nat) : Nat := (x &&& y) ^^^ (bnot32 x &&& z)

def shaMaj (x y z : Nat) : Nat := (x &&& y) ^^^ (x &&& z) ^^^ (y &&& z)

def bsig0 (x : Nat) : Nat := rotr32 2 x ^^^ rotr32 13 x ^^^ rotr32 22 x

def bsig1 (x : Nat) : Nat := rotr32 6 x ^^^ rotr32 11 x ^^^ rotr32 25 x

def ssig0 (x : Nat) : Nat := rotr32 7 x ^^^ rotr32 18 x ^^^ (x >>> 3)

def ssig1 (x : Nat) : Nat := rotr32 17 x ^^^ rotr32 19 x ^^^ (x >>> 10)

def shaK : List Nat :=
  [1116352408, 1899447441, 3049323471, 3921009573, 961987163, 1508970993, 2453635748,
   2870763221, 3624381080, 310598401, 607225278, 1426881987, 1925078388, 2162078206,
   2614888103, 3248222580, 3835390401, 4022224774, 264347078, 604807628, 770255983,
   1249150122, 1555081692, 1996064986, 2554220882, 2821834349, 2952996808, 3210313671,
   3336571891, 3584528711, 113926993, 338241895, 666307205, 773529912, 1294757372,
   1396182291, 1695183700, 1986661051, 2177026350, 2456956037, 2730485921, 2820302411,
   3259730800, 3345764771, 3516065817, 3600352804, 4094571909, 275423344, 430227734,
   506948616, 659060556, 883997877, 958139571, 1322822218, 1537002063, 1747873779,
   1955562222, 2024104815, 2227730452, 2361852424, 2428436474, 2756734187, 3204031479,
   3329325298]

structure Sha256State where
  a : Nat
  b : Nat
  c : Nat
  d : Nat
  e : Nat
  f : Nat
  g : Nat
  h : Nat
  deriving DecidableEq

def shaInit : Sha256State :=
  ⟨1779033703, 3144134277, 1013904242, 2773480762, 1359893119, 2600822924, 528734635,
   1541459225⟩

/-- Big-endian bytes of `n`, exactly `numBytes` long. -/
def toBytesBE (numBytes n : Nat) : List Nat :=
  match numBytes with
  | 0 => []
  | k + 1 => toBytesBE k (n >>> 8) ++ [n % 256]

/-- SHA-256 padding: `0x80`, zeros to 56 mod 64, then the 64-bit big-endian bit length. -/
def padMessage (msg : List Nat) : List Nat :=
  msg ++ [128] ++ List.replicate ((64 - (msg.length + 9) % 64) % 64) 0
      ++ toBytesBE 8 (8 * msg.length)

def chunk64 (l : List Nat) : List (List Nat) :=
  match l with
  | [] => []
  | b :: rest => ((b :: rest).take 64) :: chunk64 (rest.drop 63)
termination_by l.length
decreasing_by simp [List.length_drop]; omega

/-- Big-endian 32-bit words from a list of bytes. -/
def bytesToWords : List Nat → List Nat
  | b0 :: b1 :: b2 :: b3 :: rest =>
      (b0 * 16777216 + b1 * 65536 + b2 * 256 + b3) :: bytesToWords rest
  | _ => []

/-- Extend the 16-word schedule by `k` further words. -/
def extendSchedule (ws : List Nat) : Nat → List Nat
  | 0 => ws
  | k + 1 =>
      extendSchedule
        (ws ++ [w32 (ssig1 (ws.getD (ws.length - 2) 0) + ws.getD (ws.length - 7) 0 +
                     ssig0 (ws.getD (ws.length - 15) 0) + ws.getD (ws.length - 16) 0)]) k

def shaRound (st : Sha256State) (kw : Nat × Nat) : Sha256State :=
  let t1 := w32 (st.h + bsig1 st.e + shaCh st.e st.f st.g + kw.1 + kw.2)
  let t2 := w32 (bsig0 st.a + shaMaj st.a st.b st.c)
  ⟨w32 (t1 + t2), st.a, st.b, st.c, w32 (st.d + t1), st.e, st.f, st.g⟩

def processBlock (h0 : Sha256State) (block : List Nat) : Sha256State :=
  let ws := extendSchedule (bytesToWords block) 48
  let st := (shaK.zip ws).foldl shaRound h0
  ⟨w32 (h0.a + st.a), w32 (h0.b + st.b), w32 (h0.c + st.c), w32 (h0.d + st.d),
   w32 (h0.e + st.e), w32 (h0.f + st.f), w32 (h0.g + st.g), w32 (h0.h + st.h)⟩

def sha256 (msg : List Nat) : Sha256State :=
  (chunk64 (padMessage msg)).foldl processBlock shaInit

def hexDigit (n : Nat) : Char := if n < 10 then Char.ofNat (48 + n) else Char.ofNat (87 + n)

def toHex8 (w : Nat) : List Char :=
  [hexDigit (w / 268435456 % 16), hexDigit (w / 16777216 % 16), hexDigit (w / 1048576 % 16),
   hexDigit (w / 65536 % 16), hexDigit (w / 4096 % 16), hexDigit (w / 256 % 16),
   hexDigit (w / 16 % 16), hexDigit (w % 16)]

/-- The 64 lowercase hex characters of `hashlib.sha256(msg).hexdigest()`. -/
def sha256HexChars (msg : List Nat) : List Char :=
  let st := sha256 msg
  toHex8 st.a ++ toHex8 st.b ++ toHex8 st.c ++ toHex8 st.d ++
  toHex8 st.e ++ toHex8 st.f ++ toHex8 st.g ++ toHex8 st.h

/-- UTF-8 encoding of one character (Python `str.encode()`), as byte values. -/
def utf8Bytes (c : Char) : List Nat :=
  let n := c.toNat
  if n < 128 then [n]
  else if n < 2048 then [192 ||| (n >>> 6), 128 ||| (n &&& 63)]
  else if n < 65536 then
    [224 ||| (n >>> 12), 128 ||| ((n >>> 6) &&& 63), 128 ||| (n &&& 63)]
  else
    [240 ||| (n >>> 18), 128 ||| ((n >>> 12) &&& 63), 128 ||| ((n >>> 6) &&& 63),
     128 ||| (n &&& 63)]

/-- `s.encode()`: the UTF-8 bytes of a string. -/
def strBytes (s : String) : List Nat := (s.data.map utf8Bytes).flatten

/-! ## Data model (`app/schemas/visitors.py`, `app/schemas/pageviews.py`) -/

structure VisitorTrackRequest where
  visitor_id : Option String := none
  user_agent : String
  accept_language : String
  screen_resolution : String
  timezone : String
  platform : String
  language : String
  referrer : Option String := none
  deriving DecidableEq

structure VisitorTrackResponse where
  visitor_id : String
  is_new_visitor : Bool
  total_visits : Nat
  last_visit_at : Int
  deriving DecidableEq

structure VisitorBlogViewRequest where
  visitor_id : String
  blog_slug : String
  blog_title : String
  deriving DecidableEq

structure VisitorBlogViewResponse where
  view_id : String
  is_new_view : Bool
  total_blog_views : Nat
  deriving DecidableEq

structure VisitorBlogViewsResponse where
  slug : String
  total_views : Nat
  unique_views : Nat
  recent_views : Nat
  last_viewed_at : Option Int
  deriving DecidableEq

structure TopBlogPost where
  slug : String
  title : String
  view_count : Nat
  unique_viewers : Nat
  deriving DecidableEq

structure RecentVisitor where
  visitorId : String
  isNewVisitor : Bool
  totalVisits : Nat
  lastVisitAt : Int
  deriving DecidableEq

structure VisitorStatsResponse where
  total_visitors : Nat
  new_visitors : Nat
  returning_visitors : Nat
  total_blog_views : Nat
  unique_blog_views : Nat
  top_blog_posts : List TopBlogPost
  recent_visitors : List RecentVisitor
  deriving DecidableEq

/-- The visitor dict built in `track_visitor` (`visitor_service.py` lines 62-76). -/
structure Visitor where
  id : String
  fingerprint : String
  user_agent : String
  accept_language : String
  screen_resolution : String
  timezone : String
  platform : String
  language : String
  referrer : Option String
  first_visit_at : Int
  last_visit_at : Int
  total_visits : Nat
  is_new_visitor : Bool
  deriving DecidableEq

/-- The view dict built in `track_blog_view` (`visitor_service.py` lines 111-119). -/
structure BlogView where
  id : String
  visitor_id : String
  blog_slug : String
  blog_title : String
  viewed_at : Int
  is_unique_view : Bool
  is_localhost : Bool
  deriving DecidableEq

/-- The mutable fields of `MemoryVisitorService`. -/
structure ServiceState where
  visitors : List (String × Visitor)
  blog_views : List BlogView
  visitor_sessions : List (String × List Int)
  deriving DecidableEq

/-! ## `MemoryVisitorService` (`app/services/visitor_service.py`) -/

/-- The joined attribute string of `_generate_fingerprint` (line 27). -/
def fingerprintData (r : VisitorTrackRequest) : String :=
  r.user_agent ++ "|" ++ r.accept_language ++ "|" ++ r.screen_resolution ++ "|" ++
  r.timezone ++ "|" ++ r.platform

/-- `_generate_fingerprint`: first 32 hex characters of the SHA-256 digest of the
joined attributes (lines 25-28). -/
def generate_fingerprint (r : VisitorTrackRequest) : String :=
  String.mk ((sha256HexChars (strBytes (fingerprintData r))).take 32)

/-- Python dict-key assignment `d[k] = a`: replace in place if the key is
present (dicts keep the original position), else append. -/
def setAssoc {α : Type} (l : List (String × α)) (k : String) (a : α) : List (String × α) :=
  if l.any (fun p => p.1 = k) then l.map (fun p => if p.1 = k then (p.1, a) else p)
  else l ++ [(k, a)]

/-- Lines 49-51: create the session list if absent, then append `now`. -/
def appendSession (sess : List (String × List Int)) (vid : String) (now : Int) :
    List (String × List Int) :=
  if sess.any (fun p => p.1 = vid) then
    sess.map (fun p => if p.1 = vid then (p.1, p.2 ++ [now]) else p)
  else sess ++ [(vid, [now])]

/-- `track_visitor` (lines 30-86).  `freshId` stands for the `str(uuid4())` of
line 61, `now` for `datetime.now(timezone.utc)`.  The returned total for a
returning visitor is the found visitor's count plus one: the source mutates the
dict entry and then reads it back, and dict keys are unique. -/
def track_visitor (s : ServiceState) (req : VisitorTrackRequest) (freshId : String) (now : Int) :
    VisitorTrackResponse × ServiceState :=
  let fingerprint := generate_fingerprint req
  match s.visitors.find? (fun p => p.2.fingerprint = fingerprint) with
  | some (vid, v) =>
      (⟨vid, false, v.total_visits + 1, now⟩,
       { s with
           visitors := s.visitors.map (fun p =>
             if p.1 = vid then
               (p.1, { p.2 with total_visits := p.2.total_visits + 1, last_visit_at := now })
             else p),
           visitor_sessions := appendSession s.visitor_sessions vid now })
  | none =>
      let visitor : Visitor :=
        ⟨freshId, fingerprint, req.user_agent, req.accept_language, req.screen_resolution,
         req.timezone, req.platform, req.language, req.referrer, now, now, 1, true⟩
      (⟨freshId, true, 1, now⟩,
       { s with
           visitors := setAssoc s.visitors freshId visitor,
           visitor_sessions := setAssoc s.visitor_sessions freshId [now] })

/-- The fallback request of `track_blog_view` lines 96-103. -/
def fallbackTrackRequest : VisitorTrackRequest :=
  { user_agent := "unknown", accept_language := "unknown", screen_resolution := "unknown",
    timezone := "UTC", platform := "unknown", language := "unknown" }

/-- `track_blog_view` (lines 88-126).  `viewId` stands for the `str(uuid4())` of
line 90, `fallbackId` for the one the fallback `track_visitor` call would draw. -/
def track_blog_view (s : ServiceState) (req : VisitorBlogViewRequest) (is_localhost : Bool)
    (viewId fallbackId : String) (now : Int) : VisitorBlogViewResponse × ServiceState :=
  let s1 := if s.visitors.any (fun p => p.1 = req.visitor_id) then s
            else (track_visitor s fallbackTrackRequest fallbackId now).2
  let existing_views := s1.blog_views.filter (fun v => v.blog_slug = req.blog_slug)
  let is_new_view := !(existing_views.any (fun v => v.visitor_id = req.visitor_id))
  let view : BlogView :=
    ⟨viewId, req.visitor_id, req.blog_slug, req.blog_title, now, is_new_view, is_localhost⟩
  (⟨viewId, is_new_view, existing_views.length + 1⟩,
   { s1 with blog_views := s1.blog_views ++ [view] })

/-- `get_blog_views` (lines 173-186).  `(now - t).days <= 7` is floor division
of the age in seconds by 86400, and `max` over the matching timestamps. -/
def get_blog_views (s : ServiceState) (slug : String) (now : Int) : VisitorBlogViewsResponse :=
  let blog_views := s.blog_views.filter (fun v => v.blog_slug = slug)
  let unique_viewers := (blog_views.map (fun v => v.visitor_id)).dedup
  let recent_views := (blog_views.filter (fun v => (now - v.viewed_at) / 86400 ≤ 7)).length
  ⟨slug, blog_views.length, unique_viewers.length, recent_views,
   (blog_views.map (fun v => v.viewed_at)).max?⟩

/-- The per-slug accumulator dict of `get_visitor_stats` (lines 135-141);
`unique_viewers` models the Python set as a duplicate-free list. -/
structure SlugViewData where
  count : Nat
  unique_viewers : List String
  title : String
  deriving DecidableEq

/-- Add to a modelled set: append unless already present. -/
def addUnique (l : List String) (v : String) : List String := if v ∈ l then l else l ++ [v]

/-- One iteration of the grouping loop of lines 136-141. -/
def groupStep (acc : List (String × SlugViewData)) (view : BlogView) :
    List (String × SlugViewData) :=
  if acc.any (fun p => p.1 = view.blog_slug) then
    acc.map (fun p =>
      if p.1 = view.blog_slug then
        (p.1, ⟨p.2.count + 1, addUnique p.2.unique_viewers view.visitor_id, p.2.title⟩)
      else p)
  else acc ++ [(view.blog_slug, ⟨1, [view.visitor_id], view.blog_title⟩)]

def blogViewsBySlug (views : List BlogView) : List (String × SlugViewData) :=
  views.foldl groupStep []

/-- Stable insertion for descending order: `x` goes before the first element
whose key is not above its own, as Python's stable `sorted(reverse=True)`. -/
def insertByKeyDesc {α : Type} (key : α → Int) (x : α) : List α → List α
  | [] => [x]
  | y :: ys => if key x ≥ key y then x :: y :: ys else y :: insertByKeyDesc key x ys

/-- Python `sorted(l, key=key, reverse=True)` (stable, descending). -/
def sortByKeyDesc {α : Type} (key : α → Int) : List α → List α
  | [] => []
  | x :: xs => insertByKeyDesc key x (sortByKeyDesc key xs)

/-- `get_visitor_stats` (lines 128-171).  `unique_blog_views` is the SUM of the
per-slug unique-viewer set sizes (line 168). -/
def get_visitor_stats (s : ServiceState) : VisitorStatsResponse :=
  let total_visitors := s.visitors.length
  let new_visitors := (s.visitors.filter (fun p => p.2.total_visits = 1)).length
  let bySlug := blogViewsBySlug s.blog_views
  let top_blog_posts :=
    ((sortByKeyDesc (fun p => (p.2.count : Int)) bySlug).take 10).map
      (fun p => TopBlogPost.mk p.1 p.2.title p.2.count p.2.unique_viewers.length)
  let recent_visitors :=
    ((sortByKeyDesc (fun p => p.2.last_visit_at) s.visitors).take 10).map
      (fun p => RecentVisitor.mk p.1 (p.2.total_visits == 1) p.2.total_visits p.2.last_visit_at)
  ⟨total_visitors, new_visitors, total_visitors - new_visitors, s.blog_views.length,
   (bySlug.map (fun p => p.2.unique_viewers.length)).sum, top_blog_posts, recent_visitors⟩

/-! ## `MemoryPageviewService` (`app/services/pageview_service.py`) -/

structure PageviewRequest where
  url : String
  title : Option String := none
  referrer : Option String := none
  user_agent : Option String := none
  timestamp : Option Int := none
  deriving DecidableEq

/-- The pageview dict built in `track_pageview` (lines 31-43). -/
structure Pageview where
  id : String
  url : String
  title : Option String
  referrer : Option String
  user_agent : Option String
  timestamp : Int
  tracked_at : Int
  screen_resolution : Option String
  timezone : Option String
  platform : Option String
  session_id : Option String
  deriving DecidableEq

structure PageviewResponse where
  pageview_id : String
  tracked_at : Int
  deriving DecidableEq

structure TopPage where
  url : String
  count : Nat
  title : Option String
  deriving DecidableEq

structure PageviewStatsResponse where
  total : Nat
  today : Nat
  yesterday : Nat
  this_week : Nat
  unique_urls : Nat
  top_pages : List TopPage
  deriving DecidableEq

/-- `track_pageview` (lines 19-50).  `request.timestamp or now` falls back to
`now` exactly when the client timestamp is absent (a datetime is never falsy). -/
def track_pageview (pvs : List Pageview) (req : PageviewRequest)
    (screen_resolution timezone_str platform session_id : Option String)
    (freshId : String) (now : Int) : PageviewResponse × List Pageview :=
  let pv : Pageview :=
    ⟨freshId, req.url, req.title, req.referrer, req.user_agent, req.timestamp.getD now, now,
     screen_resolution, timezone_str, platform, session_id⟩
  (⟨freshId, now⟩, pvs ++ [pv])

/-- The per-url accumulator dict of `get_pageview_stats` (lines 69-74); the
stored title is the first pageview's (possibly absent) title. -/
structure UrlCountData where
  count : Nat
  title : Option String
  deriving DecidableEq

/-- One iteration of the url-counting loop of lines 70-74. -/
def urlCountStep (acc : List (String × UrlCountData)) (p : Pageview) :
    List (String × UrlCountData) :=
  if acc.any (fun q => q.1 = p.url) then
    acc.map (fun q => if q.1 = p.url then (q.1, ⟨q.2.count + 1, q.2.title⟩) else q)
  else acc ++ [(p.url, ⟨1, p.title⟩)]

/-- `get_pageview_stats` (lines 52-88).  `today_start` is midnight UTC of the
current day: `now.replace(hour=0, minute=0, second=0, microsecond=0)` floors
`now` to a multiple of 86400 seconds. -/
def get_pageview_stats (pvs : List Pageview) (now : Int) : PageviewStatsResponse :=
  let today_start := now - now % 86400
  let yesterday_start := today_start - 86400
  let week_start := today_start - 7 * 86400
  let today := (pvs.filter (fun p => today_start ≤ p.timestamp)).length
  let yesterday :=
    (pvs.filter (fun p => yesterday_start ≤ p.timestamp ∧ p.timestamp < today_start)).length
  let this_week := (pvs.filter (fun p => week_start ≤ p.timestamp)).length
  let url_counts := pvs.foldl urlCountStep []
  let top_pages :=
    ((sortByKeyDesc (fun q => (q.2.count : Int)) url_counts).take 10).map
      (fun q => TopPage.mk q.1 q.2.count q.2.title)
  ⟨pvs.length, today, yesterday, this_week, (pvs.map (fun p => p.url)).dedup.length, top_pages⟩

/-! ## `MemoryBlogService.get_blog_stats` (`app/services/blog_service.py` lines 98-124) -/

structure BlogStatsResponse where
  total_blog_posts : Nat
  total_views : Nat
  total_unique_views : Nat
  average_views_per_post : Rat
  top_posts : List TopBlogPost
  deriving DecidableEq

/-- `get_blog_stats`: per-slug roll-up over the visitor service's stats.  The
`unique_slugs` set of lines 107-110 is modelled by its size, the number of
distinct slugs; the float average of line 113 by the exact rational. -/
def get_blog_stats (s : ServiceState) : BlogStatsResponse :=
  let visitor_stats := get_visitor_stats s
  let total_blog_posts := (s.blog_views.map (fun v => v.blog_slug)).dedup.length
  ⟨total_blog_posts, visitor_stats.total_blog_views, visitor_stats.unique_blog_views,
   if 0 < total_blog_posts then (visitor_stats.total_blog_views : Rat) / total_blog_posts else 0,
   visitor_stats.top_blog_posts⟩

/-! ## `AnalyticsManager` (`scripts/analytics_manager.py`)

Only the store-level behaviour is embedded: `get_analytics_overview` and the
filter-and-replace of `cleanup_localhost_views`.  The terminal menu, the ANSI
colours, the JSON backup files (`backup_data`, `export_detailed_report`,
`self.original_data`) are operator I/O outside the store, and the
`localhost_percentage` entry is a float computed for display only. -/

/-- The combined process state: the visitor service's store plus the pageview
service's store (two module-level singletons in the source). -/
structure World where
  visitor_state : ServiceState
  pageviews : List Pageview
  deriving DecidableEq

/-- A per-slug entry of `get_analytics_overview`'s `blog_stats` dict before the
set-to-count conversion of lines 101-103. -/
structure SlugStatSets where
  total : Nat
  localhost : Nat
  production : Nat
  unique_visitors : List String
  localhost_visitors : List String
  deriving DecidableEq

/-- One iteration of the grouping loop of lines 80-98. -/
def overviewSlugStep (acc : List (String × SlugStatSets)) (v : BlogView) :
    List (String × SlugStatSets) :=
  let acc1 := if acc.any (fun p => p.1 = v.blog_slug) then acc
              else acc ++ [(v.blog_slug, ⟨0, 0, 0, [], []⟩)]
  acc1.map (fun p =>
    if p.1 = v.blog_slug then
      (p.1,
       if v.is_localhost then
         ⟨p.2.total + 1, p.2.localhost + 1, p.2.production,
          addUnique p.2.unique_visitors v.visitor_id,
          addUnique p.2.localhost_visitors v.visitor_id⟩
       else
         ⟨p.2.total + 1, p.2.localhost, p.2.production + 1,
          addUnique p.2.unique_visitors v.visitor_id, p.2.localhost_visitors⟩)
    else p)

/-- A `blog_stats` entry after the sets are converted to counts. -/
structure SlugStatCounts where
  total : Nat
  localhost : Nat
  production : Nat
  unique_visitors : Nat
  localhost_visitors : Nat
  deriving DecidableEq

def toSlugStatCounts (d : SlugStatSets) : SlugStatCounts :=
  ⟨d.total, d.localhost, d.production, d.unique_visitors.length, d.localhost_visitors.length⟩

structure AnalyticsOverview where
  total_views : Nat
  localhost_views : Nat
  production_views : Nat
  total_visitors : Nat
  localhost_visitors : Nat
  production_visitors : Nat
  blog_stats : List (String × SlugStatCounts)
  latest_view : Option Int
  oldest_view : Option Int
  date_range_days : Int
  deriving DecidableEq

/-- `get_analytics_overview` (lines 66-126). -/
def get_analytics_overview (s : ServiceState) : AnalyticsOverview :=
  let localhost_views := s.blog_views.filter (fun v => v.is_localhost)
  let production_views := s.blog_views.filter (fun v => !v.is_localhost)
  let latest := (s.blog_views.map (fun v => v.viewed_at)).max?
  let oldest := (s.blog_views.map (fun v => v.viewed_at)).min?
  let date_range : Int :=
    match latest, oldest with
    | some l, some o => (l - o) / 86400
    | _, _ => 0
  ⟨s.blog_views.length, localhost_views.length, production_views.length,
   ((s.blog_views.map (fun v => v.visitor_id)).dedup).length,
   ((localhost_views.map (fun v => v.visitor_id)).dedup).length,
   ((production_views.map (fun v => v.visitor_id)).dedup).length,
   (s.blog_views.foldl overviewSlugStep []).map (fun p => (p.1, toSlugStatCounts p.2)),
   latest, oldest, date_range⟩

/-- The value of `cleanup_localhost_views`: the returned triple plus the state
it leaves behind. -/
structure CleanupResult where
  success : Bool
  before_stats : AnalyticsOverview
  after_stats : AnalyticsOverview
  state : World
  deriving DecidableEq

/-- `cleanup_localhost_views` (lines 222-248): snapshot, early-return when no
localhost views exist, otherwise replace `blog_views` by its non-localhost
subsequence and snapshot again.  The backup file of lines 231-235 is external
I/O; the `removed_count` local of line 243 is the drop in `blog_views` length. -/
def cleanup_localhost_views (w : World) : CleanupResult :=
  let before_stats := get_analytics_overview w.visitor_state
  if before_stats.localhost_views = 0 then ⟨false, before_stats, before_stats, w⟩
  else
    let s' := { w.visitor_state with
                blog_views := w.visitor_state.blog_views.filter (fun v => !v.is_localhost) }
    ⟨true, before_stats, get_analytics_overview s', { w with visitor_state := s' }⟩

/-! ## Call sequences -/

/-- The arguments of one `track_blog_view` call. -/
structure BlogViewCall where
  req : VisitorBlogViewRequest
  is_localhost : Bool
  viewId : String
  fallbackId : String
  now : Int
  deriving DecidableEq

/-- A sequence of `track_blog_view` calls, collecting the responses. -/
def runBlogViews (s : ServiceState) :
    List BlogViewCall → List VisitorBlogViewResponse × ServiceState
  | [] => ([], s)
  | c :: cs =>
      let step := track_blog_view s c.req c.is_localhost c.viewId c.fallbackId c.now
      let rest := runBlogViews step.2 cs
      (step.1 :: rest.1, rest.2)

/-- The arguments of one `track_visitor` call. -/
structure VisitorCall where
  req : VisitorTrackRequest
  freshId : String
  now : Int
  deriving DecidableEq

/-- A sequence of `track_visitor` calls, collecting the responses. -/
def runTrackVisitor (s : ServiceState) :
    List VisitorCall → List VisitorTrackResponse × ServiceState
  | [] => ([], s)
  | c :: cs =>
      let step := track_visitor s c.req c.freshId c.now
      let rest := runTrackVisitor step.2 cs
      (step.1 :: rest.1, rest.2)

def dfltTrackResp : VisitorTrackResponse := ⟨"", false, 0, 0⟩

def dfltBlogResp : VisitorBlogViewResponse := ⟨"", false, 0⟩

def dfltVisitorCall : VisitorCall :=
  ⟨{ user_agent := "", accept_language := "", screen_resolution := "", timezone := "",
     platform := "", language := "" }, "", 0⟩

/-! ## Spec-side readings

These definitions follow the specification's words, to be compared with the
definitions above that were translated from the source. -/

/-- Spec reading (C1): the size of the union of the per-slug unique-viewer
sets, i.e. the number of distinct visitor tokens appearing in any stored
blog-view event. -/
def specUnionUniqueViewers (views : List BlogView) : Nat :=
  ((views.map (fun v => v.visitor_id)).dedup).length

/-- Spec reading (C1, amended): the sum, over the distinct slugs, of the
number of distinct visitor tokens among that slug's stored events. -/
def specSumPerSlugUniqueViewers (views : List BlogView) : Nat :=
  (((views.map (fun v => v.blog_slug)).dedup).map (fun sl =>
    (((views.filter (fun v => v.blog_slug = sl)).map (fun v => v.visitor_id)).dedup).length)).sum

/-- Spec reading (C6): the number of the slug's events whose timestamp lies
within the trailing 7 days of the current time (neither older than 7 days nor
in the future). -/
def specRecentWithin7Days (s : ServiceState) (slug : String) (now : Int) : Nat :=
  ((s.blog_views.filter (fun v => v.blog_slug = slug)).filter
    (fun v => 0 ≤ now - v.viewed_at ∧ now - v.viewed_at ≤ 7 * 86400)).length

/-- The UTC calendar day containing an instant, as a day number (floor of the
epoch second count by 86400). -/
def dayIndex (t : Int) : Int := t / 86400

/-- Spec reading (C5): the number of events whose timestamp lies in the UTC
calendar day containing the call instant. -/
def specTodayCount (pvs : List Pageview) (now : Int) : Nat :=
  (pvs.filter (fun p => dayIndex p.timestamp = dayIndex now)).length

/-! ## Helper lemmas -/

theorem toHex8_length (w : Nat) : (toHex8 w).length = 8 := rfl

theorem sha256HexChars_length (msg : List Nat) : (sha256HexChars msg).length = 64 := by
  simp [sha256HexChars, toHex8]

theorem any_filter_eq {α : Type} (p q : α → Bool) (l : List α) :
    (l.filter p).any q = l.any (fun a => p a && q a) := by
  induction l with
  | nil => rfl
  | cons x xs ih => by_cases h : p x <;> simp [List.filter_cons, h, ih, List.any_cons]

theorem length_filter_split {α : Type} (p : α → Bool) (l : List α) :
    l.length = (l.filter p).length + (l.filter (fun a => !p a)).length := by
  induction l with
  | nil => rfl
  | cons x xs ih => by_cases h : p x <;> simp [List.filter_cons, h, ih] <;> omega

theorem two_le_length_of_mem {α : Type} {l : List α} {a b : α}
    (hab : a ≠ b) (ha : a ∈ l) (hb : b ∈ l) : 2 ≤ l.length := by
  match l with
  | [] => cases ha
  | [x] =>
      rw [List.mem_singleton] at ha hb
      exact absurd (ha.trans hb.symm) hab
  | x :: y :: ys => simp [List.length_cons]

/-! ## Claim C4 -/

/-- Claim C4: fingerprint derivation is a pure deterministic function of the
tuple (user-agent, accepted-language, screen-resolution, timezone, platform):
requests agreeing on those five attributes get identical tokens, the token is
the fixed-length 32-hex-character prefix of the SHA-256 digest of the
attributes joined with `|`, and the derivation consults and mutates no store
(by its type it is a function of the request alone). -/
theorem C4_fingerprint_deterministic (r₁ r₂ : VisitorTrackRequest)
    (h_ua : r₁.user_agent = r₂.user_agent) (h_al : r₁.accept_language = r₂.accept_language)
    (h_sr : r₁.screen_resolution = r₂.screen_resolution) (h_tz : r₁.timezone = r₂.timezone)
    (h_pf : r₁.platform = r₂.platform) :
    generate_fingerprint r₁ = generate_fingerprint r₂ ∧
    (generate_fingerprint r₁).length = 32 ∧
    generate_fingerprint r₁ =
      String.mk ((sha256HexChars (strBytes (fingerprintData r₁))).take 32) := by
  refine ⟨?_, ?_, rfl⟩
  · unfold generate_fingerprint fingerprintData
    rw [h_ua, h_al, h_sr, h_tz, h_pf]
  · show ((sha256HexChars (strBytes (fingerprintData r₁))).take 32).length = 32
    rw [List.length_take, sha256HexChars_length]
    rfl

def c4reqA : VisitorTrackRequest :=
  { user_agent := "Mozilla/5.0", accept_language := "en-US", screen_resolution := "1920x1080",
    timezone := "UTC", platform := "MacIntel", language := "en" }

def c4reqB : VisitorTrackRequest :=
  { c4reqA with language := "nl", referrer := some "https://example.org" }

/-- Witness for C4: two concrete requests agreeing on the five fingerprint
attributes but differing in language and referrer. -/
theorem C4_fingerprint_deterministic_witness :
    generate_fingerprint c4reqA = generate_fingerprint c4reqB ∧
    (generate_fingerprint c4reqA).length = 32 ∧
    generate_fingerprint c4reqA =
      String.mk ((sha256HexChars (strBytes (fingerprintData c4reqA))).take 32) :=
  C4_fingerprint_deterministic c4reqA c4reqB rfl rfl rfl rfl rfl

/-! ## Claim C5 -/

theorem get_pageview_stats_total (pvs : List Pageview) (now : Int) :
    (get_pageview_stats pvs now).total = pvs.length := rfl

theorem get_pageview_stats_today (pvs : List Pageview) (now : Int) :
    (get_pageview_stats pvs now).today =
      (pvs.filter (fun p => now - now % 86400 ≤ p.timestamp)).length := rfl

theorem get_pageview_stats_yesterday (pvs : List Pageview) (now : Int) :
    (get_pageview_stats pvs now).yesterday =
      (pvs.filter (fun p =>
        (now - now % 86400) - 86400 ≤ p.timestamp ∧ p.timestamp < now - now % 86400)).length := rfl

theorem get_pageview_stats_this_week (pvs : List Pageview) (now : Int) :
    (get_pageview_stats pvs now).this_week =
      (pvs.filter (fun p => (now - now % 86400) - 7 * 86400 ≤ p.timestamp)).length := rfl

/-- A pageview whose client-supplied timestamp lies two days after the call
instant: it is not in the UTC calendar day of the call. -/
def c5pv : Pageview := ⟨"p1", "/posts", none, none, none, 200000, 0, none, none, none, none⟩

/-- Counterexample to claim C5 as stated: the `today` count is not the number
of events in the UTC calendar day containing the call instant — a future-dated
event (day 2, while the call is on day 0) is counted. -/
theorem C5_counterexample :
    (get_pageview_stats [c5pv] 100).today ≠ specTodayCount [c5pv] 100 := by decide

/-- Claim C5 (amended): against wall-clock now at call time and
midnight-to-midnight UTC boundaries, `today` counts exactly the events whose
UTC calendar day is the call's day *or any later day* (the filter has no upper
bound, so future-dated client timestamps are included); `yesterday` counts
exactly the events in the immediately preceding UTC calendar day; `this_week`
counts exactly the events on or after the UTC day seven days before the call's
day (again with no upper bound); all recomputed from the collection passed at
call time. -/
theorem C5_pageview_windows (pvs : List Pageview) (now : Int) :
    (get_pageview_stats pvs now).total = pvs.length ∧
    (get_pageview_stats pvs now).today =
      (pvs.filter (fun p => dayIndex now ≤ dayIndex p.timestamp)).length ∧
    (get_pageview_stats pvs now).yesterday =
      (pvs.filter (fun p => dayIndex p.timestamp = dayIndex now - 1)).length ∧
    (get_pageview_stats pvs now).this_week =
      (pvs.filter (fun p => dayIndex now - 7 ≤ dayIndex p.timestamp)).length := by
  refine ⟨rfl, ?_, ?_, ?_⟩
  · rw [get_pageview_stats_today]
    congr 1
    apply List.filter_congr
    intro p _
    simp only [decide_eq_decide]
    unfold dayIndex
    omega
  · rw [get_pageview_stats_yesterday]
    congr 1
    apply List.filter_congr
    intro p _
    simp only [decide_eq_decide]
    unfold dayIndex
    omega
  · rw [get_pageview_stats_this_week]
    congr 1
    apply List.filter_congr
    intro p _
    simp only [decide_eq_decide]
    unfold dayIndex
    omega

/-! ## Claim C6 -/

theorem get_blog_views_recent (s : ServiceState) (slug : String) (now : Int) :
    (get_blog_views s slug now).recent_views =
      ((s.blog_views.filter (fun v => v.blog_slug = slug)).filter
        (fun v => (now - v.viewed_at) / 86400 ≤ 7)).length := rfl

/-- A blog view seven and a half days old (648000 seconds before the call). -/
def c6view : BlogView := ⟨"v1", "tok", "x", "Post x", -648000, true, false⟩

def c6state : ServiceState := ⟨[], [c6view], []⟩

/-- Counterexample to claim C6 as stated: an event strictly older than 7 days
(age 7.5 days) IS counted by the code's `(now - t).days <= 7` test, so the
`recent` count differs from the number of events within the trailing 7 days. -/
theorem C6_counterexample :
    (get_blog_views c6state "x" 0).recent_views ≠ specRecentWithin7Days c6state "x" 0 := by
  decide

/-- Claim C6 (amended): the per-slug `recent` count equals the number of that
slug's stored events whose age at call time, floored to whole days, is at most
7 — i.e. events strictly newer than 8 days before the call instant, including
events 7-to-8 days old and future-dated events. -/
theorem C6_recent_views_floor_days (s : ServiceState) (slug : String) (now : Int) :
    (get_blog_views s slug now).recent_views =
      ((s.blog_views.filter (fun v => v.blog_slug = slug)).filter
        (fun v => now - v.viewed_at < 8 * 86400)).length := by
  rw [get_blog_views_recent]
  congr 1
  apply List.filter_congr
  intro v _
  simp only [decide_eq_decide]
  omega

/-! ## Claims C7 and C8 -/

theorem overview_localhost_views (s : ServiceState) :
    (get_analytics_overview s).localhost_views =
      (s.blog_views.filter (fun v => v.is_localhost)).length := rfl

theorem get_blog_views_total (s : ServiceState) (slug : String) (now : Int) :
    (get_blog_views s slug now).total_views =
      (s.blog_views.filter (fun v => v.blog_slug = slug)).length := rfl

theorem cleanup_state_blog_views (w : World) :
    (cleanup_localhost_views w).state.visitor_state.blog_views =
      w.visitor_state.blog_views.filter (fun v => !v.is_localhost) := by
  by_cases h : (get_analytics_overview w.visitor_state).localhost_views = 0
  · have h' : w.visitor_state.blog_views.filter (fun v => v.is_localhost) = [] := by
      rw [overview_localhost_views] at h
      exact List.length_eq_zero.mp h
    have hall := List.filter_eq_nil_iff.mp h'
    have hfix : w.visitor_state.blog_views.filter (fun v => !v.is_localhost) =
        w.visitor_state.blog_views :=
      List.filter_eq_self.mpr (fun a ha => by simp [hall a ha])
    simp only [cleanup_localhost_views, if_pos h]
    exact hfix.symm
  · simp only [cleanup_localhost_views, if_neg h]

theorem cleanup_state_frame (w : World) :
    (cleanup_localhost_views w).state.pageviews = w.pageviews ∧
    (cleanup_localhost_views w).state.visitor_state.visitors = w.visitor_state.visitors ∧
    (cleanup_localhost_views w).state.visitor_state.visitor_sessions =
      w.visitor_state.visitor_sessions := by
  simp only [cleanup_localhost_views]
  split
  · exact ⟨rfl, rfl, rfl⟩
  · exact ⟨rfl, rfl, rfl⟩

theorem filter_slug_localhost_split (l : List BlogView) (slug : String) :
    (l.filter (fun v => decide (v.blog_slug = slug) && !v.is_localhost)).length +
      (l.filter (fun v => v.is_localhost && v.blog_slug = slug)).length =
    (l.filter (fun v => v.blog_slug = slug)).length := by
  induction l with
  | nil => rfl
  | cons x xs ih =>
      by_cases hl : x.is_localhost <;> by_cases hs : x.blog_slug = slug <;>
        simp [List.filter_cons, hl, hs] <;> omega

/-- Claim C8: the purge removes exactly the localhost-flagged blog-view events
and nothing else — afterwards the blog-view collection is the non-localhost
subsequence in original order, the removed count is the number of localhost
events, pageviews / visitors / sessions are untouched, and each slug's total
drops by exactly that slug's localhost-event count. -/
theorem C8_cleanup_removes_exactly_localhost (w : World) :
    (cleanup_localhost_views w).state.visitor_state.blog_views =
      w.visitor_state.blog_views.filter (fun v => !v.is_localhost) ∧
    w.visitor_state.blog_views.length =
      (cleanup_localhost_views w).state.visitor_state.blog_views.length +
        (w.visitor_state.blog_views.filter (fun v => v.is_localhost)).length ∧
    (cleanup_localhost_views w).state.pageviews = w.pageviews ∧
    (cleanup_localhost_views w).state.visitor_state.visitors = w.visitor_state.visitors ∧
    (cleanup_localhost_views w).state.visitor_state.visitor_sessions =
      w.visitor_state.visitor_sessions ∧
    ∀ slug t,
      (get_blog_views (cleanup_localhost_views w).state.visitor_state slug t).total_views +
        (w.visitor_state.blog_views.filter
          (fun v => v.is_localhost && v.blog_slug = slug)).length =
      (get_blog_views w.visitor_state slug t).total_views := by
  obtain ⟨hpv, hvis, hsess⟩ := cleanup_state_frame w
  refine ⟨cleanup_state_blog_views w, ?_, hpv, hvis, hsess, ?_⟩
  · rw [cleanup_state_blog_views w]
    have := length_filter_split (fun v => v.is_localhost) w.visitor_state.blog_views
    omega
  · intro slug t
    rw [get_blog_views_total, get_blog_views_total, cleanup_state_blog_views w,
      List.filter_filter]
    exact filter_slug_localhost_split w.visitor_state.blog_views slug

/-- Claim C7: the purge is idempotent — after one call, a second consecutive
call takes the early-return path: it removes nothing (zero drop in stored
events), returns the same state, and its before and after snapshots are the
same (equal) snapshot. -/
theorem C7_cleanup_idempotent (w : World) :
    cleanup_localhost_views (cleanup_localhost_views w).state =
      ⟨false, get_analytics_overview (cleanup_localhost_views w).state.visitor_state,
        get_analytics_overview (cleanup_localhost_views w).state.visitor_state,
        (cleanup_localhost_views w).state⟩ ∧
    (cleanup_localhost_views (cleanup_localhost_views w).state).state =
      (cleanup_localhost_views w).state ∧
    (cleanup_localhost_views (cleanup_localhost_views w).state).before_stats =
      (cleanup_localhost_views (cleanup_localhost_views w).state).after_stats ∧
    (cleanup_localhost_views w).state.visitor_state.blog_views.length =
      (cleanup_localhost_views
        (cleanup_localhost_views w).state).state.visitor_state.blog_views.length := by
  have hz : (get_analytics_overview
      (cleanup_localhost_views w).state.visitor_state).localhost_views = 0 := by
    rw [overview_localhost_views, cleanup_state_blog_views]
    simp [List.filter_filter]
  have hnoop : ∀ w1 : World, (get_analytics_overview w1.visitor_state).localhost_views = 0 →
      cleanup_localhost_views w1 =
        ⟨false, get_analytics_overview w1.visitor_state,
          get_analytics_overview w1.visitor_state, w1⟩ := by
    intro w1 h1
    simp only [cleanup_localhost_views]
    rw [if_pos h1]
  have hmain := hnoop (cleanup_localhost_views w).state hz
  refine ⟨hmain, ?_, ?_, ?_⟩
  · rw [hmain]
  · rw [hmain]
  · rw [hmain]

/-! ## Claim C2 -/

/-- Whether some stored event has the given (visitor token, slug) pair. -/
def hasPair (views : List BlogView) (v sl : String) : Bool :=
  views.any (fun e => decide (e.blog_slug = sl) && decide (e.visitor_id = v))

/-- The event a `track_blog_view` call appends, given the first-view flag it
computed. -/
def mkBlogView (c : BlogViewCall) (flag : Bool) : BlogView :=
  ⟨c.viewId, c.req.visitor_id, c.req.blog_slug, c.req.blog_title, c.now, flag, c.is_localhost⟩

def dfltBlogViewCall : BlogViewCall := ⟨⟨"", "", ""⟩, false, "", "", 0⟩

theorem track_visitor_blog_views (s : ServiceState) (r : VisitorTrackRequest)
    (freshId : String) (now : Int) :
    (track_visitor s r freshId now).2.blog_views = s.blog_views := by
  unfold track_visitor
  rcases h : s.visitors.find? (fun p => p.2.fingerprint = generate_fingerprint r) with _ | ⟨vid, v⟩ <;>
    simp [h]

theorem track_blog_view_flag (s : ServiceState) (req : VisitorBlogViewRequest) (loc : Bool)
    (viewId fallbackId : String) (now : Int) :
    (track_blog_view s req loc viewId fallbackId now).1 =
      ⟨viewId, !(hasPair s.blog_views req.visitor_id req.blog_slug),
        (s.blog_views.filter (fun v => v.blog_slug = req.blog_slug)).length + 1⟩ := by
  unfold track_blog_view hasPair
  by_cases h : s.visitors.any (fun p => p.1 = req.visitor_id) <;>
    simp [h, track_visitor_blog_views, any_filter_eq]

theorem track_blog_view_state (s : ServiceState) (req : VisitorBlogViewRequest) (loc : Bool)
    (viewId fallbackId : String) (now : Int) :
    (track_blog_view s req loc viewId fallbackId now).2.blog_views =
      s.blog_views ++ [⟨viewId, req.visitor_id, req.blog_slug, req.blog_title, now,
        !(hasPair s.blog_views req.visitor_id req.blog_slug), loc⟩] := by
  unfold track_blog_view hasPair
  by_cases h : s.visitors.any (fun p => p.1 = req.visitor_id) <;>
    simp [h, track_visitor_blog_views, any_filter_eq]

theorem hasPair_append (l1 l2 : List BlogView) (v sl : String) :
    hasPair (l1 ++ l2) v sl = (hasPair l1 v sl || hasPair l2 v sl) := by
  simp [hasPair, List.any_append]

theorem runBlogViews_shape (calls : List BlogViewCall) : ∀ s : ServiceState,
    (runBlogViews s calls).1.length = calls.length ∧
    (runBlogViews s calls).2.blog_views =
      s.blog_views ++ (calls.zip (runBlogViews s calls).1).map
        (fun cr => mkBlogView cr.1 cr.2.is_new_view) := by
  induction calls with
  | nil => intro s; exact ⟨rfl, (List.append_nil _).symm⟩
  | cons c cs ih =>
      intro s
      have hstep := track_blog_view_state s c.req c.is_localhost c.viewId c.fallbackId c.now
      have hflag := track_blog_view_flag s c.req c.is_localhost c.viewId c.fallbackId c.now
      have hih := ih (track_blog_view s c.req c.is_localhost c.viewId c.fallbackId c.now).2
      simp only [runBlogViews]
      refine ⟨by simp [hih.1], ?_⟩
      rw [List.zip_cons_cons, List.map_cons, hih.2, hstep, hflag]
      simp [mkBlogView]

theorem runBlogViews_flag (v sl : String) (calls : List BlogViewCall) :
    ∀ (s : ServiceState) (i : Nat), i < calls.length →
      (calls.getD i dfltBlogViewCall).req.visitor_id = v →
      (calls.getD i dfltBlogViewCall).req.blog_slug = sl →
      ((runBlogViews s calls).1.getD i dfltBlogResp).is_new_view =
        !(hasPair s.blog_views v sl || (calls.take i).any (fun c =>
            decide (c.req.blog_slug = sl) && decide (c.req.visitor_id = v))) := by
  induction calls with
  | nil => intro s i hi _ _; simp at hi
  | cons c cs ih =>
      intro s i hi hv hsl
      match i with
      | 0 =>
          rw [List.getD_cons_zero] at hv hsl
          simp only [runBlogViews, List.getD_cons_zero, List.take_zero, List.any_nil,
            Bool.or_false]
          rw [track_blog_view_flag, ← hv, ← hsl]
      | i + 1 =>
          rw [List.getD_cons_succ] at hv hsl
          simp only [runBlogViews, List.getD_cons_succ, List.take_succ_cons, List.any_cons]
          rw [ih (track_blog_view s c.req c.is_localhost c.viewId c.fallbackId c.now).2 i
            (by simpa using Nat.lt_of_succ_lt_succ (by simpa using hi)) hv hsl]
          rw [track_blog_view_state, hasPair_append]
          simp [hasPair, Bool.or_assoc]

/-- Claim C2: the first-view flag is fixed at insertion time — each
`track_blog_view` call appends exactly one event carrying the flag it returned
and leaves every already-stored event (and its flag) unchanged, and for any
(visitor, slug) pair, starting from a store with no event of that pair, the
call at position `i` bearing that pair returns is-new-view = true exactly when
no earlier call in the sequence bears the same pair, regardless of the
intervening calls for other slugs or visitors. -/
theorem C2_first_view_flag (s₀ : ServiceState) (calls : List BlogViewCall) (v sl : String)
    (h0 : hasPair s₀.blog_views v sl = false) :
    (runBlogViews s₀ calls).1.length = calls.length ∧
    (runBlogViews s₀ calls).2.blog_views =
      s₀.blog_views ++ (calls.zip (runBlogViews s₀ calls).1).map
        (fun cr => mkBlogView cr.1 cr.2.is_new_view) ∧
    ∀ i, i < calls.length →
      (calls.getD i dfltBlogViewCall).req.visitor_id = v →
      (calls.getD i dfltBlogViewCall).req.blog_slug = sl →
      ((runBlogViews s₀ calls).1.getD i dfltBlogResp).is_new_view =
        !((calls.take i).any (fun c =>
          decide (c.req.blog_slug = sl) && decide (c.req.visitor_id = v))) := by
  refine ⟨(runBlogViews_shape calls s₀).1, (runBlogViews_shape calls s₀).2, ?_⟩
  intro i hi hv hsl
  rw [runBlogViews_flag v sl calls s₀ i hi hv hsl, h0, Bool.false_or]

def c2visitor : Visitor := ⟨"tok", "fp0", "ua", "al", "sr", "tz", "pf", "lang", none, 0, 0, 1, true⟩

def c2s0 : ServiceState := ⟨[("tok", c2visitor)], [], []⟩

def c2call1 : BlogViewCall := ⟨⟨"tok", "intro", "Intro"⟩, false, "id1", "f1", 10⟩

def c2call2 : BlogViewCall := ⟨⟨"tok", "other", "Other"⟩, false, "id2", "f2", 20⟩

def c2call3 : BlogViewCall := ⟨⟨"tok", "intro", "Intro"⟩, false, "id3", "f3", 30⟩

/-- Witness for C2: a concrete three-call run (same pair, intervening other
slug, same pair again) — the third call's flag is false because an earlier
call bears the pair. -/
theorem C2_first_view_flag_witness :
    ((runBlogViews c2s0 [c2call1, c2call2, c2call3]).1.getD 2 dfltBlogResp).is_new_view =
      !(([c2call1, c2call2, c2call3].take 2).any (fun c =>
        decide (c.req.blog_slug = "intro") && decide (c.req.visitor_id = "tok"))) := by
  have h := C2_first_view_flag c2s0 [c2call1, c2call2, c2call3] "tok" "intro" (by decide)
  exact h.2.2 2 (by decide) (by decide) (by decide)

/-! ## Claims C9 and C10 -/

theorem setAssoc_mem_val {α : Type} (l : List (String × α)) (k : String) (a : α) :
    ∃ p ∈ setAssoc l k a, p.2 = a := by
  unfold setAssoc
  by_cases h : l.any (fun p => p.1 = k)
  · rw [if_pos h]
    obtain ⟨p, hp, hpk⟩ := List.any_eq_true.mp h
    simp only [decide_eq_true_eq] at hpk
    have hmem : (if p.1 = k then (p.1, a) else p) ∈
        List.map (fun q => if q.1 = k then (q.1, a) else q) l :=
      List.mem_map_of_mem (fun q => if q.1 = k then (q.1, a) else q) hp
    rw [if_pos hpk] at hmem
    exact ⟨(p.1, a), hmem, rfl⟩
  · rw [if_neg h]
    exact ⟨(k, a), by simp, rfl⟩

/-- After any `track_visitor` call, some registered visitor carries the
fingerprint of the request (the created one, or the updated returning one). -/
theorem track_visitor_registers (s : ServiceState) (r : VisitorTrackRequest)
    (freshId : String) (now : Int) :
    ∃ p ∈ (track_visitor s r freshId now).2.visitors,
      p.2.fingerprint = generate_fingerprint r := by
  unfold track_visitor
  rcases h : s.visitors.find? (fun p => p.2.fingerprint = generate_fingerprint r)
    with _ | ⟨vid, v⟩
  · simp only [h]
    obtain ⟨p, hp, hpv⟩ := setAssoc_mem_val s.visitors freshId
      ⟨freshId, generate_fingerprint r, r.user_agent, r.accept_language, r.screen_resolution,
       r.timezone, r.platform, r.language, r.referrer, now, now, 1, true⟩
    exact ⟨p, hp, by rw [hpv]⟩
  · have hpred : decide (v.fingerprint = generate_fingerprint r) = true := by
      have := List.find?_some h
      simpa using this
    simp only [decide_eq_true_eq] at hpred
    have hmem := List.mem_of_find?_eq_some h
    simp only [h]
    have himg := List.mem_map_of_mem (fun p : String × Visitor =>
      if p.1 = vid then
        (p.1, { p.2 with total_visits := p.2.total_visits + 1, last_visit_at := now })
      else p) hmem
    exact ⟨_, himg, by simpa using hpred⟩

/-- When the supplied token is unknown, `track_blog_view` runs the fallback
`track_visitor` call, whose registry it keeps. -/
theorem track_blog_view_visitors_of_unknown (s : ServiceState) (req : VisitorBlogViewRequest)
    (loc : Bool) (viewId fallbackId : String) (now : Int)
    (hany : s.visitors.any (fun p => p.1 = req.visitor_id) = false) :
    (track_blog_view s req loc viewId fallbackId now).2.visitors =
      (track_visitor s fallbackTrackRequest fallbackId now).2.visitors := by
  unfold track_blog_view
  simp [hany]

/-- Claim C9: a blog-view tracking call with a token unknown to the registry
never fails — it returns the view id, the insertion-time first-view flag and
the running total for the slug including the just-appended event, it appends
the event under the supplied token, and it silently registers (or bumps) a
fallback visitor carrying the placeholder-attribute fingerprint. -/
theorem C9_unknown_visitor_tolerated (s : ServiceState) (req : VisitorBlogViewRequest)
    (loc : Bool) (viewId fallbackId : String) (now : Int)
    (h : ∀ p ∈ s.visitors, p.1 ≠ req.visitor_id) :
    (track_blog_view s req loc viewId fallbackId now).1 =
      ⟨viewId, !(hasPair s.blog_views req.visitor_id req.blog_slug),
        (s.blog_views.filter (fun v => v.blog_slug = req.blog_slug)).length + 1⟩ ∧
    (track_blog_view s req loc viewId fallbackId now).2.blog_views =
      s.blog_views ++ [⟨viewId, req.visitor_id, req.blog_slug, req.blog_title, now,
        !(hasPair s.blog_views req.visitor_id req.blog_slug), loc⟩] ∧
    ∃ p ∈ (track_blog_view s req loc viewId fallbackId now).2.visitors,
      p.2.fingerprint = generate_fingerprint fallbackTrackRequest := by
  have hany : s.visitors.any (fun p => p.1 = req.visitor_id) = false := by
    rw [List.any_eq_false]
    intro p hp
    simpa using h p hp
  refine ⟨track_blog_view_flag s req loc viewId fallbackId now,
    track_blog_view_state s req loc viewId fallbackId now, ?_⟩
  rw [track_blog_view_visitors_of_unknown s req loc viewId fallbackId now hany]
  exact track_visitor_registers s fallbackTrackRequest fallbackId now

def c9s0 : ServiceState := ⟨[], [], []⟩

def c9req : VisitorBlogViewRequest := ⟨"ghost-token", "intro", "Intro"⟩

/-- Witness for C9 at a concrete empty registry and an unknown token. -/
theorem C9_unknown_visitor_tolerated_witness :
    (track_blog_view c9s0 c9req false "vid" "fid" 5).1 =
      ⟨"vid", !(hasPair c9s0.blog_views c9req.visitor_id c9req.blog_slug),
        (c9s0.blog_views.filter (fun v => v.blog_slug = c9req.blog_slug)).length + 1⟩ ∧
    (track_blog_view c9s0 c9req false "vid" "fid" 5).2.blog_views =
      c9s0.blog_views ++ [⟨"vid", c9req.visitor_id, c9req.blog_slug, c9req.blog_title, 5,
        !(hasPair c9s0.blog_views c9req.visitor_id c9req.blog_slug), false⟩] ∧
    ∃ p ∈ (track_blog_view c9s0 c9req false "vid" "fid" 5).2.visitors,
      p.2.fingerprint = generate_fingerprint fallbackTrackRequest :=
  C9_unknown_visitor_tolerated c9s0 c9req false "vid" "fid" 5 (by simp [c9s0])

theorem map_fst_preserved {α : Type} (l : List (String × α)) (g : String × α → String × α)
    (hg : ∀ p, (g p).1 = p.1) : (l.map g).map Prod.fst = l.map Prod.fst := by
  rw [List.map_map]
  exact List.map_congr_left (fun a _ => hg a)

/-- The registry's key set after `track_visitor` is the old key set, possibly
extended by the freshly generated id — never by any other string. -/
theorem track_visitor_keys (s : ServiceState) (r : VisitorTrackRequest) (freshId : String)
    (now : Int) :
    ∀ k ∈ (track_visitor s r freshId now).2.visitors.map Prod.fst,
      k ∈ s.visitors.map Prod.fst ∨ k = freshId := by
  unfold track_visitor
  rcases h : s.visitors.find? (fun p => p.2.fingerprint = generate_fingerprint r)
    with _ | ⟨vid, v⟩
  · simp only [h]
    unfold setAssoc
    by_cases hh : s.visitors.any (fun p => p.1 = freshId)
    · rw [if_pos hh]
      intro k hk
      rw [map_fst_preserved _ _ (fun p => by by_cases hp : p.1 = freshId <;> simp [hp])] at hk
      exact Or.inl hk
    · rw [if_neg hh]
      intro k hk
      rw [List.map_append] at hk
      rcases List.mem_append.mp hk with hk' | hk'
      · exact Or.inl hk'
      · right
        simpa using hk'
  · simp only [h]
    intro k hk
    rw [map_fst_preserved _ _ (fun p => by by_cases hp : p.1 = vid <;> simp [hp])] at hk
    exact Or.inl hk

theorem get_blog_views_unique (s : ServiceState) (slug : String) (now : Int) :
    (get_blog_views s slug now).unique_views =
      (((s.blog_views.filter (fun v => v.blog_slug = slug)).map
        (fun v => v.visitor_id)).dedup).length := rfl

/-- Claim C10: the registry's keys stay internally generated — a blog-view call
with an unknown token `T` leaves the key set within the old keys plus the
fresh fallback id, so `T` is still not a key afterwards, while the appended
event references `T`; and a stored event for the same slug by a different
token makes at least two distinct unique viewers in the slug's aggregation. -/
theorem C10_registry_keys_internal (s : ServiceState) (req : VisitorBlogViewRequest)
    (loc : Bool) (viewId fallbackId : String) (now : Int)
    (h1 : ∀ p ∈ s.visitors, p.1 ≠ req.visitor_id)
    (h2 : fallbackId ≠ req.visitor_id) :
    (∀ k ∈ (track_blog_view s req loc viewId fallbackId now).2.visitors.map Prod.fst,
      k ∈ s.visitors.map Prod.fst ∨ k = fallbackId) ∧
    req.visitor_id ∉ (track_blog_view s req loc viewId fallbackId now).2.visitors.map Prod.fst ∧
    (∃ e, (track_blog_view s req loc viewId fallbackId now).2.blog_views =
        s.blog_views ++ [e] ∧ e.visitor_id = req.visitor_id) ∧
    ∀ e ∈ s.blog_views, e.blog_slug = req.blog_slug → e.visitor_id ≠ req.visitor_id →
      ∀ t, 2 ≤ (get_blog_views (track_blog_view s req loc viewId fallbackId now).2
                  req.blog_slug t).unique_views := by
  have hany : s.visitors.any (fun p => p.1 = req.visitor_id) = false := by
    rw [List.any_eq_false]
    intro p hp
    simpa using h1 p hp
  have hvis := track_blog_view_visitors_of_unknown s req loc viewId fallbackId now hany
  have hkeys : ∀ k ∈ (track_blog_view s req loc viewId fallbackId now).2.visitors.map Prod.fst,
      k ∈ s.visitors.map Prod.fst ∨ k = fallbackId := by
    rw [hvis]
    exact track_visitor_keys s fallbackTrackRequest fallbackId now
  refine ⟨hkeys, ?_, ?_, ?_⟩
  · intro hmem
    rcases hkeys req.visitor_id hmem with hin | hfb
    · obtain ⟨p, hp, hpk⟩ := List.mem_map.mp hin
      exact h1 p hp hpk
    · exact h2 hfb.symm
  · exact ⟨⟨viewId, req.visitor_id, req.blog_slug, req.blog_title, now,
      !(hasPair s.blog_views req.visitor_id req.blog_slug), loc⟩,
      track_blog_view_state s req loc viewId fallbackId now, rfl⟩
  · intro e he hslug hne t
    rw [get_blog_views_unique, track_blog_view_state s req loc viewId fallbackId now]
    have hids : e.visitor_id ∈ (((s.blog_views ++ [(⟨viewId, req.visitor_id, req.blog_slug,
        req.blog_title, now, !(hasPair s.blog_views req.visitor_id req.blog_slug), loc⟩ :
          BlogView)]).filter
          (fun v => v.blog_slug = req.blog_slug)).map (fun v => v.visitor_id)).dedup := by
      rw [List.mem_dedup]
      refine List.mem_map_of_mem _ (List.mem_filter.mpr
        ⟨List.mem_append.mpr (Or.inl he), ?_⟩)
      simp [hslug]
    have hnew : req.visitor_id ∈ (((s.blog_views ++ [(⟨viewId, req.visitor_id, req.blog_slug,
        req.blog_title, now, !(hasPair s.blog_views req.visitor_id req.blog_slug), loc⟩ :
          BlogView)]).filter
          (fun v => v.blog_slug = req.blog_slug)).map (fun v => v.visitor_id)).dedup := by
      rw [List.mem_dedup, List.mem_map]
      refine ⟨⟨viewId, req.visitor_id, req.blog_slug, req.blog_title, now,
        !(hasPair s.blog_views req.visitor_id req.blog_slug), loc⟩, ?_, rfl⟩
      refine List.mem_filter.mpr ⟨List.mem_append.mpr (Or.inr ?_), ?_⟩
      · simp
      · simp
    exact two_le_length_of_mem hne hids hnew

def c10s0 : ServiceState := ⟨[], [⟨"e0", "other-tok", "intro", "Intro", 0, true, false⟩], []⟩

/-- Witness for C10: empty registry, one stored event by another token on the
same slug, a fresh fallback id distinct from the unknown token. -/
theorem C10_registry_keys_internal_witness :
    (∀ k ∈ (track_blog_view c10s0 c9req false "vid2" "fb" 9).2.visitors.map Prod.fst,
      k ∈ c10s0.visitors.map Prod.fst ∨ k = "fb") ∧
    c9req.visitor_id ∉ (track_blog_view c10s0 c9req false "vid2" "fb" 9).2.visitors.map Prod.fst ∧
    (∃ e, (track_blog_view c10s0 c9req false "vid2" "fb" 9).2.blog_views =
        c10s0.blog_views ++ [e] ∧ e.visitor_id = c9req.visitor_id) ∧
    ∀ e ∈ c10s0.blog_views, e.blog_slug = c9req.blog_slug → e.visitor_id ≠ c9req.visitor_id →
      ∀ t, 2 ≤ (get_blog_views (track_blog_view c10s0 c9req false "vid2" "fb" 9).2
                  c9req.blog_slug t).unique_views :=
  C10_registry_keys_internal c10s0 c9req false "vid2" "fb" 9 (by simp [c10s0]) (by decide)

/-! ## Claim C3 -/

theorem track_visitor_found (s : ServiceState) (r : VisitorTrackRequest) (freshId : String)
    (now : Int) (vid : String) (v : Visitor)
    (hfind : s.visitors.find? (fun p => p.2.fingerprint = generate_fingerprint r) =
      some (vid, v)) :
    (track_visitor s r freshId now).1 = ⟨vid, false, v.total_visits + 1, now⟩ ∧
    (track_visitor s r freshId now).2.visitors = s.visitors.map (fun p =>
      if p.1 = vid then
        (p.1, { p.2 with total_visits := p.2.total_visits + 1, last_visit_at := now })
      else p) := by
  simp only [track_visitor]
  rw [hfind]
  exact ⟨rfl, rfl⟩

theorem track_visitor_notfound (s : ServiceState) (r : VisitorTrackRequest) (freshId : String)
    (now : Int)
    (hfind : s.visitors.find? (fun p => p.2.fingerprint = generate_fingerprint r) = none) :
    (track_visitor s r freshId now).1 = ⟨freshId, true, 1, now⟩ ∧
    (track_visitor s r freshId now).2.visitors = setAssoc s.visitors freshId
      ⟨freshId, generate_fingerprint r, r.user_agent, r.accept_language, r.screen_resolution,
       r.timezone, r.platform, r.language, r.referrer, now, now, 1, true⟩ := by
  simp only [track_visitor]
  rw [hfind]
  exact ⟨rfl, rfl⟩

theorem find?_fp_append_single (orig : List (String × Visitor)) (id₀ : String) (v : Visitor)
    (fp : String) (horig : ∀ p ∈ orig, p.2.fingerprint ≠ fp) (hv : v.fingerprint = fp) :
    (orig ++ [(id₀, v)]).find? (fun p => p.2.fingerprint = fp) = some (id₀, v) := by
  rw [List.find?_append]
  have h1 : orig.find? (fun p => p.2.fingerprint = fp) = none :=
    List.find?_eq_none.mpr (fun x hx => by simpa using horig x hx)
  rw [h1]
  simp [List.find?, hv]

theorem update_append_single (orig : List (String × Visitor)) (id₀ : String) (a : Visitor)
    (now : Int) (hid : ∀ p ∈ orig, p.1 ≠ id₀) :
    (orig ++ [(id₀, a)]).map (fun p =>
      if p.1 = id₀ then
        (p.1, { p.2 with total_visits := p.2.total_visits + 1, last_visit_at := now })
      else p) =
    orig ++ [(id₀, { a with total_visits := a.total_visits + 1, last_visit_at := now })] := by
  rw [List.map_append]
  congr 1
  · have hstep : ∀ p ∈ orig, (if p.1 = id₀ then
        (p.1, { p.2 with total_visits := p.2.total_visits + 1, last_visit_at := now })
      else p) = id p := fun p hp => by rw [if_neg (hid p hp)]; rfl
    rw [List.map_congr_left hstep, List.map_id]
  · simp

theorem runTrackVisitor_returning (fp : String) (orig : List (String × Visitor)) (id₀ : String)
    (horig : ∀ p ∈ orig, p.2.fingerprint ≠ fp) (hid : ∀ p ∈ orig, p.1 ≠ id₀) :
    ∀ (calls : List VisitorCall), (∀ c ∈ calls, generate_fingerprint c.req = fp) →
      ∀ (s : ServiceState) (v : Visitor),
      s.visitors = orig ++ [(id₀, v)] → v.fingerprint = fp →
      (runTrackVisitor s calls).1.length = calls.length ∧
      (∀ i, i < calls.length →
        (runTrackVisitor s calls).1.getD i dfltTrackResp =
          ⟨id₀, false, v.total_visits + i + 1, (calls.getD i dfltVisitorCall).now⟩) ∧
      ∃ v' : Visitor, (runTrackVisitor s calls).2.visitors = orig ++ [(id₀, v')] ∧
        v'.fingerprint = fp ∧ v'.total_visits = v.total_visits + calls.length := by
  intro calls
  induction calls with
  | nil =>
      intro _ s v hs hv
      exact ⟨rfl, fun i hi => absurd hi (by simp), ⟨v, hs, hv, rfl⟩⟩
  | cons c cs ih =>
      intro hfp s v hs hv
      have hgf : generate_fingerprint c.req = fp := hfp c (by simp)
      have hfind : s.visitors.find?
          (fun p => p.2.fingerprint = generate_fingerprint c.req) = some (id₀, v) := by
        rw [hs, hgf]
        exact find?_fp_append_single orig id₀ v fp horig hv
      obtain ⟨hresp, hvis⟩ := track_visitor_found s c.req c.freshId c.now id₀ v hfind
      have hvis' : (track_visitor s c.req c.freshId c.now).2.visitors =
          orig ++
            [(id₀, { v with total_visits := v.total_visits + 1, last_visit_at := c.now })] := by
        rw [hvis, hs]
        exact update_append_single orig id₀ v c.now hid
      obtain ⟨hlen, hresps, v', hvfin, hvfp, hvtot⟩ :=
        ih (fun c' hc' => hfp c' (by simp [hc']))
          (track_visitor s c.req c.freshId c.now).2
          { v with total_visits := v.total_visits + 1, last_visit_at := c.now } hvis' hv
      simp only [runTrackVisitor]
      refine ⟨by simp [hlen], ?_, ⟨v', hvfin, hvfp, by
        have hvtot' : v'.total_visits = v.total_visits + 1 + cs.length := hvtot
        simp only [List.length_cons]
        omega⟩⟩
      intro i hi
      match i with
      | 0 =>
          rw [List.getD_cons_zero, List.getD_cons_zero, hresp]
      | i + 1 =>
          have hi' : i < cs.length := by simpa using Nat.lt_of_succ_lt_succ (by simpa using hi)
          rw [List.getD_cons_succ, List.getD_cons_succ, hresps i hi',
            VisitorTrackResponse.mk.injEq]
          refine ⟨rfl, rfl, ?_, rfl⟩
          show v.total_visits + 1 + i + 1 = v.total_visits + (i + 1) + 1
          omega

/-- Claim C3: from a registry holding no visitor with the tuple's fingerprint,
a sequence of tracking calls with that same attribute tuple creates exactly one
Visitor record: the first call returns is-new = true with visit count 1, every
later call returns the same visitor id with is-new = false and a count exactly
one larger than the previous call's (so strictly increasing and monotone), and
after every nonempty prefix of the sequence exactly one registered visitor
carries that fingerprint. -/
theorem C3_single_visitor_per_fingerprint (s₀ : ServiceState) (calls : List VisitorCall)
    (fp : String) (hne : calls ≠ [])
    (hfp : ∀ c ∈ calls, generate_fingerprint c.req = fp)
    (h0 : ∀ p ∈ s₀.visitors, p.2.fingerprint ≠ fp)
    (hfresh : ∀ c ∈ calls, ∀ p ∈ s₀.visitors, c.freshId ≠ p.1) :
    (runTrackVisitor s₀ calls).1.length = calls.length ∧
    (runTrackVisitor s₀ calls).2.visitors.length = s₀.visitors.length + 1 ∧
    (∀ i, i < calls.length →
      (runTrackVisitor s₀ calls).1.getD i dfltTrackResp =
        ⟨(calls.getD 0 dfltVisitorCall).freshId, i == 0, i + 1,
          (calls.getD i dfltVisitorCall).now⟩) ∧
    ∀ k, 0 < k → k ≤ calls.length →
      ((runTrackVisitor s₀ (calls.take k)).2.visitors.filter
        (fun p => p.2.fingerprint = fp)).length = 1 := by
  obtain ⟨c, cs, rfl⟩ := List.exists_cons_of_ne_nil hne
  have hgf : generate_fingerprint c.req = fp := hfp c (by simp)
  have hfind : s₀.visitors.find?
      (fun p => p.2.fingerprint = generate_fingerprint c.req) = none := by
    apply List.find?_eq_none.mpr
    intro p hp
    simp only [hgf, decide_eq_true_eq]
    exact h0 p hp
  obtain ⟨hresp0, hvis0⟩ := track_visitor_notfound s₀ c.req c.freshId c.now hfind
  have hany : s₀.visitors.any (fun p => p.1 = c.freshId) = false := by
    rw [List.any_eq_false]
    intro p hp
    simp only [decide_eq_true_eq]
    intro heq
    exact hfresh c (by simp) p hp heq.symm
  have hset : (track_visitor s₀ c.req c.freshId c.now).2.visitors =
      s₀.visitors ++ [(c.freshId,
        ⟨c.freshId, generate_fingerprint c.req, c.req.user_agent, c.req.accept_language,
         c.req.screen_resolution, c.req.timezone, c.req.platform, c.req.language,
         c.req.referrer, c.now, c.now, 1, true⟩)] := by
    rw [hvis0]
    unfold setAssoc
    rw [if_neg (by simp [hany])]
  have hid : ∀ p ∈ s₀.visitors, p.1 ≠ c.freshId := by
    intro p hp heq
    exact hfresh c (by simp) p hp heq.symm
  have hret := runTrackVisitor_returning fp s₀.visitors c.freshId h0 hid cs
    (fun c' hc' => hfp c' (by simp [hc']))
    (track_visitor s₀ c.req c.freshId c.now).2 _ hset (by simpa using hgf)
  obtain ⟨hlen, hresps, v', hvfin, hvfp, hvtot⟩ := hret
  refine ⟨?_, ?_, ?_, ?_⟩
  · simp only [runTrackVisitor]
    simp [hlen]
  · simp only [runTrackVisitor]
    rw [hvfin, List.length_append]
    rfl
  · intro i hi
    simp only [runTrackVisitor]
    match i with
    | 0 =>
        simp only [List.getD_cons_zero]
        exact hresp0
    | i + 1 =>
        have hi' : i < cs.length := by simpa using Nat.lt_of_succ_lt_succ (by simpa using hi)
        simp only [List.getD_cons_succ, List.getD_cons_zero]
        rw [hresps i hi', VisitorTrackResponse.mk.injEq]
        refine ⟨rfl, rfl, ?_, rfl⟩
        show (1 : Nat) + i + 1 = i + 1 + 1
        omega
  · intro k hk hkle
    match k with
    | k' + 1 =>
        have htake : (c :: cs).take (k' + 1) = c :: cs.take k' := rfl
        rw [htake]
        simp only [runTrackVisitor]
        have hret' := runTrackVisitor_returning fp s₀.visitors c.freshId h0 hid (cs.take k')
          (fun c' hc' => hfp c' (by simp [List.mem_of_mem_take hc']))
          (track_visitor s₀ c.req c.freshId c.now).2 _ hset (by simpa using hgf)
        obtain ⟨_, _, v'', hvfin'', hvfp'', _⟩ := hret'
        rw [hvfin'', List.filter_append]
        have h0filter : s₀.visitors.filter (fun p => p.2.fingerprint = fp) = [] :=
          List.filter_eq_nil_iff.mpr (fun p hp => by simpa using h0 p hp)
        rw [h0filter]
        simp [hvfp'']

def c3req : VisitorTrackRequest :=
  { user_agent := "Mozilla/5.0", accept_language := "en", screen_resolution := "800x600",
    timezone := "UTC", platform := "web", language := "en" }

def c3calls : List VisitorCall := [⟨c3req, "uuid-1", 100⟩, ⟨c3req, "uuid-2", 200⟩]

/-- Witness for C3: two concrete same-tuple calls from an empty registry — the
second call's response reuses the first call's visitor id with is-new = false
and visit count 2. -/
theorem C3_single_visitor_per_fingerprint_witness :
    (runTrackVisitor ⟨[], [], []⟩ c3calls).1.getD 1 dfltTrackResp =
      ⟨(c3calls.getD 0 dfltVisitorCall).freshId, 1 == 0, 1 + 1,
        (c3calls.getD 1 dfltVisitorCall).now⟩ := by
  have h := C3_single_visitor_per_fingerprint ⟨[], [], []⟩ c3calls
    (generate_fingerprint c3req) (by simp [c3calls])
    (by intro c hc; simp [c3calls] at hc; rcases hc with rfl | rfl <;> rfl)
    (fun p hp => absurd hp (List.not_mem_nil p))
    (fun c hc p hp => absurd hp (List.not_mem_nil p))
  exact h.2.2.1 1 (by simp [c3calls])

/-! ## Claim C1 -/

/-- The distinct elements of a list in first-encounter order (the reachable
contents of the Python sets built by repeated insertion). -/
def uniqueList (l : List String) : List String := l.foldl addUnique []

theorem mem_addUnique (acc : List String) (y x : String) :
    x ∈ addUnique acc y ↔ x ∈ acc ∨ x = y := by
  unfold addUnique
  by_cases h : y ∈ acc
  · rw [if_pos h]
    constructor
    · exact Or.inl
    · rintro (hx | rfl)
      · exact hx
      · exact h
  · rw [if_neg h]
    simp

theorem mem_foldl_addUnique (l : List String) : ∀ (acc : List String) (x : String),
    x ∈ l.foldl addUnique acc ↔ x ∈ acc ∨ x ∈ l := by
  induction l with
  | nil => intro acc x; simp
  | cons y ys ih =>
      intro acc x
      rw [List.foldl_cons, ih, mem_addUnique, List.mem_cons]
      tauto

theorem nodup_addUnique (acc : List String) (y : String) (h : acc.Nodup) :
    (addUnique acc y).Nodup := by
  unfold addUnique
  by_cases hy : y ∈ acc
  · rwa [if_pos hy]
  · rw [if_neg hy]
    simp [List.nodup_append, h, hy]

theorem nodup_foldl_addUnique (l : List String) :
    ∀ acc : List String, acc.Nodup → (l.foldl addUnique acc).Nodup := by
  induction l with
  | nil => intro acc h; simpa using h
  | cons y ys ih =>
      intro acc h
      rw [List.foldl_cons]
      exact ih (addUnique acc y) (nodup_addUnique acc y h)

theorem uniqueList_length (l : List String) : (uniqueList l).length = l.dedup.length := by
  have hperm : (uniqueList l).Perm l.dedup := by
    unfold uniqueList
    rw [List.perm_ext_iff_of_nodup (nodup_foldl_addUnique l [] List.nodup_nil)
      (List.nodup_dedup l)]
    intro a
    rw [List.mem_dedup, mem_foldl_addUnique]
    simp
  exact hperm.length_eq

/-- The visitor tokens of a slug's stored events, in order. -/
def slugIds (views : List BlogView) (sl : String) : List String :=
  (views.filter (fun v => v.blog_slug = sl)).map (fun v => v.visitor_id)

theorem slugIds_append_single (pre : List BlogView) (v : BlogView) (sl : String) :
    slugIds (pre ++ [v]) sl =
      slugIds pre sl ++ (if v.blog_slug = sl then [v.visitor_id] else []) := by
  unfold slugIds
  rw [List.filter_append, List.map_append]
  congr 1
  by_cases h : v.blog_slug = sl <;> simp [h]

theorem blogViewsBySlug_invariant (views : List BlogView) :
    ∀ (acc : List (String × SlugViewData)) (pre : List BlogView),
      (∀ sl, (∃ p ∈ acc, p.1 = sl) ↔ sl ∈ pre.map (fun v => v.blog_slug)) →
      (acc.map Prod.fst).Nodup →
      (∀ p ∈ acc, p.2.unique_viewers = (slugIds pre p.1).foldl addUnique []) →
      (∀ sl, (∃ p ∈ views.foldl groupStep acc, p.1 = sl) ↔
          sl ∈ (pre ++ views).map (fun v => v.blog_slug)) ∧
      ((views.foldl groupStep acc).map Prod.fst).Nodup ∧
      (∀ p ∈ views.foldl groupStep acc,
          p.2.unique_viewers = (slugIds (pre ++ views) p.1).foldl addUnique []) := by
  induction views with
  | nil =>
      intro acc pre h1 h2 h3
      rw [List.foldl_nil, List.append_nil]
      exact ⟨h1, h2, h3⟩
  | cons v vs ih =>
      intro acc pre h1 h2 h3
      have hsplit : pre ++ v :: vs = (pre ++ [v]) ++ vs := by simp
      rw [List.foldl_cons, hsplit]
      by_cases hin : acc.any (fun p => p.1 = v.blog_slug)
      · -- known slug: the matching entry is updated in place
        obtain ⟨q, hq, hqk⟩ := List.any_eq_true.mp hin
        simp only [decide_eq_true_eq] at hqk
        have hgs : groupStep acc v = acc.map (fun p =>
            if p.1 = v.blog_slug then
              (p.1, ⟨p.2.count + 1, addUnique p.2.unique_viewers v.visitor_id, p.2.title⟩)
            else p) := by
          unfold groupStep
          rw [if_pos hin]
        apply ih _ (pre ++ [v])
        · intro sl
          rw [hgs]
          have hkeys : (∃ p ∈ acc.map (fun p =>
              if p.1 = v.blog_slug then
                (p.1, (⟨p.2.count + 1, addUnique p.2.unique_viewers v.visitor_id, p.2.title⟩ :
                  SlugViewData))
              else p), p.1 = sl) ↔ (∃ p ∈ acc, p.1 = sl) := by
            constructor
            · rintro ⟨p', hp', hp'k⟩
              obtain ⟨p, hp, rfl⟩ := List.mem_map.mp hp'
              refine ⟨p, hp, ?_⟩
              by_cases hpk : p.1 = v.blog_slug
              · rw [if_pos hpk] at hp'k
                exact hp'k
              · rw [if_neg hpk] at hp'k
                exact hp'k
            · rintro ⟨p, hp, hpk⟩
              refine ⟨_, List.mem_map_of_mem _ hp, ?_⟩
              by_cases hpv : p.1 = v.blog_slug
              · rw [if_pos hpv]
                exact hpk
              · rw [if_neg hpv]
                exact hpk
          rw [hkeys, h1 sl]
          have hvslug : v.blog_slug ∈ pre.map (fun x => x.blog_slug) :=
            (h1 v.blog_slug).mp ⟨q, hq, hqk⟩
          simp only [List.map_append, List.mem_append]
          constructor
          · exact Or.inl
          · rintro (hsl | hsl)
            · exact hsl
            · simp only [List.map_cons, List.map_nil, List.mem_singleton] at hsl
              rw [hsl]
              exact hvslug
        · rw [hgs]
          rwa [map_fst_preserved _ _
            (fun p => by by_cases hp : p.1 = v.blog_slug <;> simp [hp])]
        · intro p' hp'
          rw [hgs] at hp'
          obtain ⟨p, hp, rfl⟩ := List.mem_map.mp hp'
          by_cases hpk : p.1 = v.blog_slug
          · rw [if_pos hpk]
            show addUnique p.2.unique_viewers v.visitor_id =
              (slugIds (pre ++ [v]) p.1).foldl addUnique []
            rw [slugIds_append_single, if_pos hpk.symm, List.foldl_append, h3 p hp]
            rfl
          · rw [if_neg hpk]
            rw [h3 p hp, slugIds_append_single, if_neg (fun hh => hpk hh.symm)]
            simp
      · -- new slug: a fresh entry is appended
        have hgs : groupStep acc v =
            acc ++ [(v.blog_slug, ⟨1, [v.visitor_id], v.blog_title⟩)] := by
          unfold groupStep
          rw [if_neg (by simpa using hin)]
        have hnotin : ∀ p ∈ acc, p.1 ≠ v.blog_slug := by
          intro p hp heq
          exact hin (List.any_eq_true.mpr ⟨p, hp, by simpa using heq⟩)
        have hvnew : v.blog_slug ∉ pre.map (fun x => x.blog_slug) := by
          intro hmem
          obtain ⟨p, hp, hpk⟩ := (h1 v.blog_slug).mpr hmem
          exact hnotin p hp hpk
        apply ih _ (pre ++ [v])
        · intro sl
          rw [hgs]
          simp only [List.map_append, List.mem_append]
          constructor
          · rintro ⟨p', hp', hp'k⟩
            rcases hp' with hpa | hpb
            · exact Or.inl ((h1 sl).mp ⟨p', hpa, hp'k⟩)
            · right
              simp only [List.mem_singleton] at hpb
              rw [hpb] at hp'k
              have hsl : v.blog_slug = sl := hp'k
              rw [← hsl]
              simp
          · rintro (hsl | hsl)
            · obtain ⟨p, hp, hpk⟩ := (h1 sl).mpr hsl
              exact ⟨p, Or.inl hp, hpk⟩
            · simp only [List.map_cons, List.map_nil, List.mem_singleton] at hsl
              exact ⟨(v.blog_slug, ⟨1, [v.visitor_id], v.blog_title⟩),
                Or.inr (by simp), hsl.symm⟩
        · rw [hgs, List.map_append]
          have hkey : v.blog_slug ∉ acc.map Prod.fst := by
            intro hmem
            obtain ⟨p, hp, hpk⟩ := List.mem_map.mp hmem
            exact hnotin p hp hpk
          simp [List.nodup_append, h2, hkey]
        · intro p' hp'
          rw [hgs] at hp'
          rcases List.mem_append.mp hp' with hpa | hpb
          · rw [h3 p' hpa, slugIds_append_single,
              if_neg (fun hh => hnotin p' hpa hh.symm)]
            simp
          · simp only [List.mem_singleton] at hpb
            rw [hpb]
            show [v.visitor_id] = (slugIds (pre ++ [v]) v.blog_slug).foldl addUnique []
            have hpre0 : slugIds pre v.blog_slug = [] := by
              unfold slugIds
              have hfil : pre.filter (fun x => x.blog_slug = v.blog_slug) = [] := by
                rw [List.filter_eq_nil_iff]
                intro x hx
                simp only [decide_eq_true_eq]
                intro heq
                exact hvnew (List.mem_map.mpr ⟨x, hx, heq⟩)
              rw [hfil, List.map_nil]
            rw [slugIds_append_single, hpre0, if_pos rfl]
            rfl

theorem get_visitor_stats_unique (s : ServiceState) :
    (get_visitor_stats s).unique_blog_views =
      ((blogViewsBySlug s.blog_views).map (fun p => p.2.unique_viewers.length)).sum := rfl

/-- Claim C1 (amended): the reported count of unique blog viewers is the SUM of
the per-slug unique-viewer counts — a visitor who viewed several distinct slugs
is counted once per slug — not the size of the union of the per-slug
unique-viewer sets. -/
theorem C1_unique_blog_views_is_sum (s : ServiceState) :
    (get_visitor_stats s).unique_blog_views = specSumPerSlugUniqueViewers s.blog_views := by
  rw [get_visitor_stats_unique]
  unfold blogViewsBySlug
  obtain ⟨hkeys, hnodup, hvals⟩ := blogViewsBySlug_invariant s.blog_views [] []
    (by simp) (by simp) (by simp)
  have hmap : (s.blog_views.foldl groupStep []).map (fun p => p.2.unique_viewers.length) =
      (s.blog_views.foldl groupStep []).map
        (fun p => ((slugIds s.blog_views p.1).dedup).length) := by
    apply List.map_congr_left
    intro p hp
    rw [hvals p hp]
    exact uniqueList_length (slugIds s.blog_views p.1)
  have hperm : ((s.blog_views.foldl groupStep []).map Prod.fst).Perm
      ((s.blog_views.map (fun v => v.blog_slug)).dedup) := by
    rw [List.perm_ext_iff_of_nodup hnodup (List.nodup_dedup _)]
    intro sl
    rw [List.mem_dedup]
    constructor
    · intro hsl
      obtain ⟨p, hp, hpk⟩ := List.mem_map.mp hsl
      exact (hkeys sl).mp ⟨p, hp, hpk⟩
    · intro hsl
      obtain ⟨p, hp, hpk⟩ := (hkeys sl).mpr (by simpa using hsl)
      exact List.mem_map.mpr ⟨p, hp, hpk⟩
  calc ((s.blog_views.foldl groupStep []).map (fun p => p.2.unique_viewers.length)).sum
      = ((s.blog_views.foldl groupStep []).map
          (fun p => ((slugIds s.blog_views p.1).dedup).length)).sum := by rw [hmap]
    _ = (((s.blog_views.foldl groupStep []).map Prod.fst).map
          (fun sl => ((slugIds s.blog_views sl).dedup).length)).sum := by
        rw [List.map_map]
        rfl
    _ = (((s.blog_views.map (fun v => v.blog_slug)).dedup).map
          (fun sl => ((slugIds s.blog_views sl).dedup).length)).sum :=
        (hperm.map _).sum_eq
    _ = specSumPerSlugUniqueViewers s.blog_views := rfl

def c1s : ServiceState :=
  ⟨[], [⟨"v1", "tok", "a", "Title A", 0, true, false⟩,
        ⟨"v2", "tok", "b", "Title B", 0, true, false⟩], []⟩

/-- Counterexample to claim C1 as stated: a single visitor token viewing two
distinct slugs is counted once per slug — the reported unique-viewer count is
2 (the per-slug sum) while the union of the per-slug unique-viewer sets has
size 1. -/
theorem C1_counterexample :
    (get_visitor_stats c1s).unique_blog_views ≠ specUnionUniqueViewers c1s.blog_views := by
  decide

